import Mathlib

/-
Verification of the lunaby-sdk request/streaming pipeline.

The development shallowly embeds the TypeScript source:
JavaScript strings are `List Char`, byte stream chunks are `List Nat`
(each element a byte), the WHATWG `TextDecoder('utf-8')` used with
`{ stream: true }` is embedded as an explicit byte-level state machine,
and the platform `ReadableStream` is a list of byte chunks consumed
in order.  Stateful classes (`ChatStream`, the request executor in
`client.ts`) become explicit state-passing functions.
-/

namespace Lunaby

/-! ## JavaScript string primitives (strings as `List Char`) -/

/-- Character set removed by JavaScript `String.prototype.trim`:
the ECMAScript WhiteSpace and LineTerminator code points. -/
def jsIsWhitespace (c : Char) : Bool :=
  c.toNat = 0x9 ∨ c.toNat = 0xA ∨ c.toNat = 0xB ∨ c.toNat = 0xC ∨
  c.toNat = 0xD ∨ c.toNat = 0x20 ∨ c.toNat = 0xA0 ∨ c.toNat = 0x1680 ∨
  (0x2000 ≤ c.toNat ∧ c.toNat ≤ 0x200A) ∨ c.toNat = 0x2028 ∨
  c.toNat = 0x2029 ∨ c.toNat = 0x202F ∨ c.toNat = 0x205F ∨
  c.toNat = 0x3000 ∨ c.toNat = 0xFEFF

/-- JavaScript `line.trim()`: strip leading and trailing whitespace. -/
def jsTrim (l : List Char) : List Char :=
  ((l.dropWhile jsIsWhitespace).reverse.dropWhile jsIsWhitespace).reverse

/-- JavaScript `s.split(sep)` for a one-character separator: the list of
(possibly empty) parts between occurrences of `sep`.  Always non-empty. -/
def jsSplit (sep : Char) : List Char → List (List Char)
  | [] => [[]]
  | c :: cs =>
    if c = sep then [] :: jsSplit sep cs
    else
      match jsSplit sep cs with
      | [] => [[c]]
      | l :: ls => (c :: l) :: ls

/-! ## WHATWG UTF-8 streaming decoder (`TextDecoder('utf-8')`)

`decoder.decode(value, { stream: true })` in `streaming.ts` keeps
decoder state across calls so that multi-byte characters split across
read boundaries decode correctly.  We embed the WHATWG Encoding
Standard's UTF-8 decoder: a byte-level state machine producing zero or
more code points per byte, with U+FFFD replacement on error. -/

structure Utf8State where
  codePoint : Nat
  bytesNeeded : Nat
  bytesSeen : Nat
  lowerBoundary : Nat
  upperBoundary : Nat
deriving DecidableEq

def Utf8State.start : Utf8State :=
  { codePoint := 0, bytesNeeded := 0, bytesSeen := 0,
    lowerBoundary := 0x80, upperBoundary := 0xBF }

/-- Handle one byte when no multi-byte sequence is in progress. -/
def utf8StartByte (b : Nat) : Utf8State × List Char :=
  if b ≤ 0x7F then
    (Utf8State.start, [Char.ofNat b])
  else if 0xC2 ≤ b ∧ b ≤ 0xDF then
    ({ codePoint := b % 0x20, bytesNeeded := 1, bytesSeen := 0,
       lowerBoundary := 0x80, upperBoundary := 0xBF }, [])
  else if 0xE0 ≤ b ∧ b ≤ 0xEF then
    ({ codePoint := b % 0x10, bytesNeeded := 2, bytesSeen := 0,
       lowerBoundary := if b = 0xE0 then 0xA0 else 0x80,
       upperBoundary := if b = 0xED then 0x9F else 0xBF }, [])
  else if 0xF0 ≤ b ∧ b ≤ 0xF4 then
    ({ codePoint := b % 0x8, bytesNeeded := 3, bytesSeen := 0,
       lowerBoundary := if b = 0xF0 then 0x90 else 0x80,
       upperBoundary := if b = 0xF4 then 0x8F else 0xBF }, [])
  else
    (Utf8State.start, [Char.ofNat 0xFFFD])

/-- One step of the WHATWG UTF-8 decoder: consume a byte, emit the
decoded characters (possibly U+FFFD replacements).  A continuation
byte outside the expected range emits a replacement and reprocesses
the byte from the start state, as the standard prescribes. -/
def utf8DecodeByte (st : Utf8State) (b : Nat) : Utf8State × List Char :=
  if st.bytesNeeded = 0 then
    utf8StartByte b
  else if b < st.lowerBoundary ∨ st.upperBoundary < b then
    let p := utf8StartByte b
    (p.1, Char.ofNat 0xFFFD :: p.2)
  else
    let cp := st.codePoint * 0x40 + (b % 0x40)
    let seen := st.bytesSeen + 1
    if seen = st.bytesNeeded then
      (Utf8State.start, [Char.ofNat cp])
    else
      ({ codePoint := cp, bytesNeeded := st.bytesNeeded, bytesSeen := seen,
         lowerBoundary := 0x80, upperBoundary := 0xBF }, [])

/-- Decode a whole chunk of bytes, carrying the decoder state
(`decoder.decode(value, { stream: true })`). -/
def utf8DecodeChunk (st : Utf8State) : List Nat → Utf8State × List Char
  | [] => (st, [])
  | b :: bs =>
    let p := utf8DecodeByte st b
    let q := utf8DecodeChunk p.1 bs
    (q.1, p.2 ++ q.2)

/-! ## SSE decoder (`parseSSEStream` and `parseLine` in `streaming.ts`) -/

/-- A decoded Server-Sent-Events record (`StreamEvent` in `types.ts`). -/
structure StreamEvent where
  event : Option (List Char) := none
  data : List Char
deriving DecidableEq

/-- `parseLine` from `streaming.ts`: trim the whole line; blank lines
and lines not starting with `event:` or `data:` produce nothing. -/
def parseLine (line : List Char) : Option StreamEvent :=
  let trimmed := jsTrim line
  if trimmed = [] then
    none
  else if ("event:".toList).isPrefixOf trimmed then
    some { event := some (jsTrim (trimmed.drop 6)), data := [] }
  else if ("data:".toList).isPrefixOf trimmed then
    some { data := jsTrim (trimmed.drop 5) }
  else
    none

/-- State of one `parseSSEStream` generator: the UTF-8 decoder state
and the retained incomplete last line (`buffer`). -/
structure SSEMach where
  dec : Utf8State
  buffer : List Char
deriving DecidableEq

def SSEMach.start : SSEMach := ⟨Utf8State.start, []⟩

/-- Feed newly decoded text into the line buffer: split on newlines,
retain the final (possibly incomplete) part as the new buffer
(`buffer = lines.pop() || ''`), parse and emit all complete lines. -/
def feedText (buffer t : List Char) : List Char × List StreamEvent :=
  let lines := jsSplit '\n' (buffer ++ t)
  (lines.getLastD [], lines.dropLast.filterMap parseLine)

/-- Process one byte chunk read from the stream (the main loop body of
`parseSSEStream`). -/
def stepSSE (m : SSEMach) (chunk : List Nat) : SSEMach × List StreamEvent :=
  let p := utf8DecodeChunk m.dec chunk
  let q := feedText m.buffer p.2
  (⟨p.1, q.1⟩, q.2)

/-- The `done` branch of `parseSSEStream`: if the remaining buffer is
not blank, split it and parse every line as a final best-effort pass. -/
def flushSSE (m : SSEMach) : List StreamEvent :=
  if jsTrim m.buffer ≠ [] then (jsSplit '\n' m.buffer).filterMap parseLine
  else []

/-- `parseSSEStream` over a byte source delivered as a list of chunks:
the full sequence of events yielded before the generator terminates. -/
def parseSSEStream : SSEMach → List (List Nat) → List StreamEvent
  | m, [] => flushSSE m
  | m, c :: cs =>
    let p := stepSSE m c
    p.2 ++ parseSSEStream p.1 cs

/-- Events yielded by a fresh `parseSSEStream` generator over a byte
source split into the given chunks. -/
def sseEvents (chunks : List (List Nat)) : List StreamEvent :=
  parseSSEStream SSEMach.start chunks

/-! ## Lemmas about `jsSplit` -/

theorem jsSplit_cons_sep (sep : Char) (cs : List Char) :
    jsSplit sep (sep :: cs) = [] :: jsSplit sep cs := by
  simp [jsSplit]

theorem jsSplit_cons_ne (sep c : Char) (cs l : List Char) (ls : List (List Char))
    (hc : c ≠ sep) (hs : jsSplit sep cs = l :: ls) :
    jsSplit sep (c :: cs) = (c :: l) :: ls := by
  simp [jsSplit, hc, hs]

theorem jsSplit_ne_nil (sep : Char) (s : List Char) : jsSplit sep s ≠ [] := by
  induction s with
  | nil => simp [jsSplit]
  | cons c cs ih =>
    by_cases hc : c = sep
    · subst hc
      simp [jsSplit_cons_sep]
    · obtain ⟨l, ls, hs⟩ := List.exists_cons_of_ne_nil ih
      simp [jsSplit_cons_ne sep c cs l ls hc hs]

theorem getLastD_irrel {α : Type} {l : List α} (h : l ≠ []) (d d' : α) :
    l.getLastD d = l.getLastD d' := by
  rw [List.getLastD_eq_getLast?, List.getLastD_eq_getLast?, List.getLast?_eq_getLast l h]
  rfl

theorem getLastD_cons_of_ne_nil {α : Type} (a d : α) {l : List α} (h : l ≠ []) :
    (a :: l).getLastD d = l.getLastD d := by
  rw [List.getLastD_cons]
  exact getLastD_irrel h a d

/-- Splitting a concatenation: the complete parts of `x` survive, and
the final part of `x` is prepended to `y` before splitting the rest. -/
theorem getLastD_single {α : Type} (a d : α) : [a].getLastD d = a := rfl

theorem jsSplit_append (sep : Char) (x y : List Char) :
    jsSplit sep (x ++ y) =
      (jsSplit sep x).dropLast ++ jsSplit sep ((jsSplit sep x).getLastD [] ++ y) := by
  induction x with
  | nil => simp [jsSplit]
  | cons c cs ih =>
    obtain ⟨l, ls, hs⟩ := List.exists_cons_of_ne_nil (jsSplit_ne_nil sep cs)
    by_cases hc : c = sep
    · subst hc
      rw [List.cons_append, jsSplit_cons_sep, ih, jsSplit_cons_sep, hs,
        List.dropLast_cons_of_ne_nil (List.cons_ne_nil l ls),
        getLastD_cons_of_ne_nil _ _ (List.cons_ne_nil l ls), ← hs, List.cons_append]
    · rw [hs] at ih
      cases ls with
      | nil =>
        rw [getLastD_single, List.dropLast_single, List.nil_append] at ih
        obtain ⟨m, ms, hm⟩ :=
          List.exists_cons_of_ne_nil (jsSplit_ne_nil sep (l ++ y))
        rw [List.cons_append,
          jsSplit_cons_ne sep c (cs ++ y) m ms hc (ih.trans hm),
          jsSplit_cons_ne sep c cs l [] hc hs,
          List.dropLast_single, getLastD_single, List.nil_append,
          List.cons_append,
          jsSplit_cons_ne sep c (l ++ y) m ms hc hm]
      | cons l2 ls2 =>
        have hne : (l2 :: ls2 : List (List Char)) ≠ [] := List.cons_ne_nil l2 ls2
        rw [List.dropLast_cons_of_ne_nil hne, getLastD_cons_of_ne_nil _ _ hne,
          List.cons_append] at ih
        rw [List.cons_append, jsSplit_cons_ne sep c (cs ++ y) _ _ hc ih,
          jsSplit_cons_ne sep c cs l (l2 :: ls2) hc hs,
          List.dropLast_cons_of_ne_nil hne, getLastD_cons_of_ne_nil _ _ hne,
          List.cons_append]

theorem getLastD_append_of_ne_nil {α : Type} (l1 : List α) {l2 : List α}
    (h : l2 ≠ []) (d : α) : (l1 ++ l2).getLastD d = l2.getLastD d := by
  rw [List.getLastD_eq_getLast?, List.getLastD_eq_getLast?,
    List.getLast?_append_of_ne_nil l1 h]

/-! ## Chunk-boundary invariance of the SSE decoder -/

theorem feedText_append (buf t1 t2 : List Char) :
    feedText buf (t1 ++ t2) =
      ((feedText (feedText buf t1).1 t2).1,
       (feedText buf t1).2 ++ (feedText (feedText buf t1).1 t2).2) := by
  have h2 : jsSplit '\n' ((jsSplit '\n' (buf ++ t1)).getLastD [] ++ t2) ≠ [] :=
    jsSplit_ne_nil _ _
  simp only [feedText]
  rw [← List.append_assoc, jsSplit_append '\n' (buf ++ t1) t2,
    List.dropLast_append_of_ne_nil _ h2,
    getLastD_append_of_ne_nil _ h2,
    List.filterMap_append]

theorem utf8DecodeChunk_append (st : Utf8State) (b1 b2 : List Nat) :
    utf8DecodeChunk st (b1 ++ b2) =
      ((utf8DecodeChunk (utf8DecodeChunk st b1).1 b2).1,
       (utf8DecodeChunk st b1).2 ++ (utf8DecodeChunk (utf8DecodeChunk st b1).1 b2).2) := by
  induction b1 generalizing st with
  | nil => simp [utf8DecodeChunk]
  | cons b bs ih => simp [utf8DecodeChunk, ih]

theorem stepSSE_append (m : SSEMach) (c1 c2 : List Nat) :
    stepSSE m (c1 ++ c2) =
      ((stepSSE (stepSSE m c1).1 c2).1,
       (stepSSE m c1).2 ++ (stepSSE (stepSSE m c1).1 c2).2) := by
  simp only [stepSSE]
  rw [utf8DecodeChunk_append, feedText_append]

theorem parseSSEStream_cons_eq (m : SSEMach) (c : List Nat) (cs : List (List Nat)) :
    parseSSEStream m (c :: cs) = (stepSSE m c).2 ++ parseSSEStream (stepSSE m c).1 cs :=
  rfl

theorem parseSSEStream_cons (m : SSEMach) (c : List Nat) (cs : List (List Nat)) :
    parseSSEStream m (c :: cs) = parseSSEStream m [c ++ cs.flatten] := by
  induction cs generalizing m c with
  | nil => simp [parseSSEStream]
  | cons c2 cs2 ih =>
    rw [parseSSEStream_cons_eq, ih, List.flatten_cons]
    have e2 : ∀ (m' : SSEMach) (z : List Nat),
        parseSSEStream m' [z] = (stepSSE m' z).2 ++ flushSSE (stepSSE m' z).1 :=
      fun _ _ => rfl
    rw [e2, e2, stepSSE_append m c (c2 ++ cs2.flatten)]
    simp [List.append_assoc]

/-- C2: for every SSE byte payload and every way of splitting it into a
sequence of byte chunks (including mid-multibyte-character and mid-line
splits), `parseSSEStream` yields exactly the same sequence of
`StreamEvent` records as decoding the whole payload in one chunk. -/
theorem sse_chunk_split_invariant (chunks : List (List Nat)) :
    sseEvents chunks = sseEvents [chunks.flatten] := by
  cases chunks with
  | nil => rfl
  | cons c cs => exact parseSSEStream_cons SSEMach.start c cs

/-! ## Error taxonomy (`errors.ts`) -/

/-- A JavaScript number that is either an integer or `NaN` (the only
values `parseInt` can produce). -/
inductive JsNumber where
  | nan
  | int (n : Int)
deriving DecidableEq

/-- The structured body attached to an `APIError`
(`{ error, message?, details? }` in `client.ts` / `types.ts`);
`details.categories` is a record of booleans. -/
structure ApiErrorBody where
  error : List Char
  message : Option (List Char) := none
  details : Option (List (List Char × Bool)) := none
deriving DecidableEq

/-- The typed error classes of `errors.ts`, one constructor per class,
carrying the fields each class stores beyond the base class. -/
inductive LunabyError where
  | api (message : List Char) (status : Nat) (statusText : List Char)
      (response : Option ApiErrorBody)
  | authentication (message : List Char)
  | rateLimit (message : List Char) (retryAfter : Option JsNumber)
  | timeout (message : List Char)
  | connection (message : List Char) (code : Option (List Char))
  | contentFilter (message : List Char)
  | streamErr (message : List Char) (causeName : Option (List Char))
  | abortErr (message : List Char)
  | validation (message : List Char) (field : Option (List Char))
deriving DecidableEq

/-! ## Stream aggregator (`ChatStream` in `streaming.ts`)

`JSON.parse` is a platform builtin; the aggregator model is
parameterized by a function `parse : List Char → Option ChunkRecord`
standing for `JSON.parse` (`none` models a thrown `SyntaxError`). -/

/-- Token usage totals (`TokenUsage` in `types.ts`). -/
structure TokenUsage where
  prompt_tokens : Int
  completion_tokens : Int
  total_tokens : Int
deriving DecidableEq

/-- A partial message delta (`Partial<ChatMessage>`): every field may
be absent at runtime. -/
structure MessageDelta where
  role : Option (List Char) := none
  content : Option (List Char) := none
  name : Option (List Char) := none
deriving DecidableEq

/-- One per-choice delta of a streamed chunk
(`ChatCompletionStreamChoice`).  Fields the runtime may omit are
optional, matching the `chunk.choices?.[0]?.delta?.content` optional
chain in the source. -/
structure StreamChoice where
  index : Option Int := none
  delta : Option MessageDelta := none
  finish_reason : Option (List Char) := none
deriving DecidableEq

/-- A parsed streaming chunk (`ChatCompletionChunk`).  All fields are
optional because the value comes from `JSON.parse` of wire data. -/
structure ChunkRecord where
  id : Option (List Char) := none
  created : Option Int := none
  model : Option (List Char) := none
  choices : Option (List StreamChoice) := none
  usage : Option TokenUsage := none
deriving DecidableEq

/-- The value of `chunk.choices?.[0]?.delta?.content`, with JavaScript
falsiness collapsing `undefined` and `''` to the empty string. -/
def deltaContent (ch : ChunkRecord) : List Char :=
  ((((ch.choices).bind List.head?).bind StreamChoice.delta).bind MessageDelta.content).getD []

/-- Mutable accumulation state of a `ChatStream`: `_fullContent` and
`_usage`. -/
structure AggState where
  fullContent : List Char
  usage : Option TokenUsage
deriving DecidableEq

/-- The per-chunk accumulation step of the async iterator: append
truthy first-choice delta content, overwrite stored usage when the
chunk carries usage. -/
def stepChunk (st : AggState) (ch : ChunkRecord) : AggState :=
  let content := deltaContent ch
  let st1 := if content ≠ [] then { st with fullContent := st.fullContent ++ content } else st
  match ch.usage with
  | some u => { st1 with usage := some u }
  | none => st1

/-- Drive the async-iterator loop body over a batch of already-decoded
`StreamEvent`s: stop (cleanly) at the `[DONE]` sentinel, skip empty
data, skip events whose data fails to parse, otherwise accumulate and
yield.  Returns the final state, the yielded chunks, and whether the
sentinel was reached. -/
def processEvents (parse : List Char → Option ChunkRecord) (st : AggState) :
    List StreamEvent → AggState × List ChunkRecord × Bool
  | [] => (st, [], false)
  | e :: es =>
    if e.data = "[DONE]".toList then
      (st, [], true)
    else if e.data = [] then
      processEvents parse st es
    else
      match parse e.data with
      | none => processEvents parse st es
      | some ch =>
        let r := processEvents parse (stepChunk st ch) es
        (r.1, ch :: r.2.1, r.2.2)

/-- A `ChatStream` instance: the remaining unread chunks of the
underlying `ReadableStream`, the optionally owned `AbortController`
(`some aborted` when the executor created one), and the accumulation
state. -/
structure ChatStream where
  source : List (List Nat)
  abortCtrl : Option Bool
  fullContent : List Char
  usage : Option TokenUsage
deriving DecidableEq

/-- `ChatStream.abort`: `this._abortController?.abort()` — signal the
owned controller if there is one, otherwise do nothing. -/
def ChatStream.abort (cs : ChatStream) : ChatStream :=
  match cs.abortCtrl with
  | some _ => { cs with abortCtrl := some true }
  | none => cs

/-- Outcome of driving one async iteration of a `ChatStream`. -/
structure IterResult where
  yielded : List ChunkRecord
  agg : AggState
  remaining : List (List Nat)
  failed : Option LunabyError
deriving DecidableEq

/-- Drive the `ChatStream` async iterator: read byte chunks, decode
SSE events, process them, stopping early at the `[DONE]` sentinel
(leaving later chunks unread).  The `budget` is the number of reads
that still succeed: cancellation makes the next read reject, which the
iterator wraps in a stream-kind error (`StreamError('Error reading
stream', cause)`); `none` means no cancellation occurs. -/
def goRun (parse : List Char → Option ChunkRecord) :
    Option Nat → SSEMach → AggState → List (List Nat) → IterResult
  | b, m, agg, [] =>
    if b = some 0 then
      { yielded := [], agg := agg, remaining := [],
        failed := some (.streamErr "Error reading stream".toList (some "AbortError".toList)) }
    else
      let r := processEvents parse agg (flushSSE m)
      { yielded := r.2.1, agg := r.1, remaining := [], failed := none }
  | b, m, agg, c :: rest =>
    if b = some 0 then
      { yielded := [], agg := agg, remaining := c :: rest,
        failed := some (.streamErr "Error reading stream".toList (some "AbortError".toList)) }
    else
      let p := stepSSE m c
      let r := processEvents parse agg p.2
      if r.2.2 then
        { yielded := r.2.1, agg := r.1, remaining := rest, failed := none }
      else
        let r2 := goRun parse (b.map (· - 1)) p.1 r.1 rest
        { r2 with yielded := r.2.1 ++ r2.yielded }

/-- One full `for await` pass over a `ChatStream`: the yielded chunks,
the error raised (if any), and the stream afterwards. -/
def ChatStream.iterate (parse : List Char → Option ChunkRecord) (cs : ChatStream) :
    List ChunkRecord × Option LunabyError × ChatStream :=
  let r := goRun parse none SSEMach.start ⟨cs.fullContent, cs.usage⟩ cs.source
  (r.yielded, r.failed,
   { source := r.remaining, abortCtrl := cs.abortCtrl,
     fullContent := r.agg.fullContent, usage := r.agg.usage })

/-- A `for await` pass during which cancellation fires after `k`
successful reads: every later read of the byte source rejects. -/
def ChatStream.iterateAborted (parse : List Char → Option ChunkRecord)
    (cs : ChatStream) (k : Nat) :
    List ChunkRecord × Option LunabyError × ChatStream :=
  let r := goRun parse (some k) SSEMach.start ⟨cs.fullContent, cs.usage⟩ cs.source
  (r.yielded, r.failed,
   { source := r.remaining, abortCtrl := cs.abortCtrl,
     fullContent := r.agg.fullContent, usage := r.agg.usage })

/-! ## Content accumulation (claim C3) -/

theorem stepChunk_fullContent (st : AggState) (ch : ChunkRecord) :
    (stepChunk st ch).fullContent = st.fullContent ++ deltaContent ch := by
  unfold stepChunk
  by_cases h : deltaContent ch = [] <;>
    cases hu : ch.usage <;> simp [h, hu]

theorem processEvents_cons (parse : List Char → Option ChunkRecord)
    (st : AggState) (e : StreamEvent) (es : List StreamEvent) :
    processEvents parse st (e :: es) =
      if e.data = "[DONE]".toList then (st, [], true)
      else if e.data = [] then processEvents parse st es
      else
        match parse e.data with
        | none => processEvents parse st es
        | some ch =>
          let r := processEvents parse (stepChunk st ch) es
          (r.1, ch :: r.2.1, r.2.2) :=
  rfl

theorem goRun_nil (parse : List Char → Option ChunkRecord)
    (b : Option Nat) (m : SSEMach) (agg : AggState) :
    goRun parse b m agg [] =
      if b = some 0 then
        { yielded := [], agg := agg, remaining := [],
          failed := some (.streamErr "Error reading stream".toList (some "AbortError".toList)) }
      else
        let r := processEvents parse agg (flushSSE m)
        { yielded := r.2.1, agg := r.1, remaining := [], failed := none } :=
  rfl

theorem goRun_cons (parse : List Char → Option ChunkRecord)
    (b : Option Nat) (m : SSEMach) (agg : AggState)
    (c : List Nat) (rest : List (List Nat)) :
    goRun parse b m agg (c :: rest) =
      if b = some 0 then
        { yielded := [], agg := agg, remaining := c :: rest,
          failed := some (.streamErr "Error reading stream".toList (some "AbortError".toList)) }
      else
        let p := stepSSE m c
        let r := processEvents parse agg p.2
        if r.2.2 then
          { yielded := r.2.1, agg := r.1, remaining := rest, failed := none }
        else
          let r2 := goRun parse (b.map (· - 1)) p.1 r.1 rest
          { r2 with yielded := r.2.1 ++ r2.yielded } :=
  rfl

theorem processEvents_fullContent (parse : List Char → Option ChunkRecord)
    (st : AggState) (evs : List StreamEvent) :
    (processEvents parse st evs).1.fullContent
      = st.fullContent ++ ((processEvents parse st evs).2.1.map deltaContent).flatten := by
  induction evs generalizing st with
  | nil => simp [processEvents]
  | cons e es ih =>
    rw [processEvents_cons]
    by_cases hd : e.data = "[DONE]".toList
    · rw [if_pos hd]
      simp
    · rw [if_neg hd]
      by_cases he : e.data = []
      · rw [if_pos he]
        exact ih st
      · rw [if_neg he]
        cases hp : parse e.data with
        | none =>
          exact ih st
        | some ch =>
          dsimp only
          rw [ih (stepChunk st ch), stepChunk_fullContent st ch,
            List.map_cons, List.flatten_cons, List.append_assoc]

theorem goRun_fullContent (parse : List Char → Option ChunkRecord)
    (src : List (List Nat)) (b : Option Nat) (m : SSEMach) (agg : AggState) :
    (goRun parse b m agg src).agg.fullContent
      = agg.fullContent ++ ((goRun parse b m agg src).yielded.map deltaContent).flatten := by
  induction src generalizing b m agg with
  | nil =>
    rw [goRun_nil]
    by_cases hb : b = some 0
    · rw [if_pos hb]
      simp
    · rw [if_neg hb]
      exact processEvents_fullContent parse agg (flushSSE m)
  | cons c rest ih =>
    rw [goRun_cons]
    by_cases hb : b = some 0
    · rw [if_pos hb]
      simp
    · rw [if_neg hb]
      dsimp only
      by_cases hdone : (processEvents parse agg (stepSSE m c).2).2.2 = true
      · rw [if_pos hdone]
        exact processEvents_fullContent parse agg (stepSSE m c).2
      · rw [if_neg hdone]
        dsimp only
        rw [List.map_append, List.flatten_append, ← List.append_assoc,
          ← processEvents_fullContent parse agg (stepSSE m c).2]
        exact ih _ _ _

/-- C3: fully iterating a `ChatStream` leaves its accumulated
`fullContent` equal to the previous content followed by the
concatenation, in order, of the first-choice delta contents of every
yielded chunk record (records with empty or missing content contribute
nothing). -/
theorem chatstream_accumulates_delta_contents
    (parse : List Char → Option ChunkRecord) (cs : ChatStream) :
    ((cs.iterate parse).2.2).fullContent
      = cs.fullContent ++ (((cs.iterate parse).1).map deltaContent).flatten := by
  unfold ChatStream.iterate
  exact goRun_fullContent parse cs.source none SSEMach.start ⟨cs.fullContent, cs.usage⟩

/-! ## Abort behaviour (claim C4) -/

theorem goRun_yield_prefix (parse : List Char → Option ChunkRecord)
    (src : List (List Nat)) (k : Nat) (m : SSEMach) (agg : AggState) :
    (goRun parse (some k) m agg src).yielded <+: (goRun parse none m agg src).yielded := by
  have hn : (none : Option Nat) ≠ some 0 := by simp
  induction src generalizing k m agg with
  | nil =>
    rw [goRun_nil, goRun_nil, if_neg hn]
    by_cases hk : (some k : Option Nat) = some 0
    · rw [if_pos hk]
      exact List.nil_prefix
    · rw [if_neg hk]
  | cons c rest ih =>
    rw [goRun_cons, goRun_cons, if_neg hn]
    cases k with
    | zero =>
      rw [if_pos rfl]
      exact List.nil_prefix
    | succ j =>
      rw [if_neg (by simp)]
      dsimp only
      by_cases hdone : (processEvents parse agg (stepSSE m c).2).2.2 = true
      · rw [if_pos hdone, if_pos hdone]
      · rw [if_neg hdone, if_neg hdone]
        dsimp only
        have hmap : (some (j + 1) : Option Nat).map (· - 1) = some j := by
          simp
        have hmapn : (none : Option Nat).map (· - 1) = none := rfl
        rw [hmap, hmapn]
        exact (List.prefix_append_right_inj _).mpr (ih j _ _)

/-- C4: when a `ChatStream` owns an abort controller, `abort` signals
it.  Cancellation makes the next read of the byte source reject, so an
iteration cancelled after `k` successful reads raises the stream-kind
error immediately when no read is allowed, and in every case yields a
prefix of what the uncancelled iteration yields: chunks already yielded
remain valid and no chunk is produced after the failure. -/
theorem chatstream_abort_cancellation (cs : ChatStream) (h : cs.abortCtrl.isSome) :
    (cs.abort).abortCtrl = some true ∧
    (∀ parse : List Char → Option ChunkRecord,
      (cs.iterateAborted parse 0).2.1
        = some (.streamErr "Error reading stream".toList (some "AbortError".toList))) ∧
    (∀ (parse : List Char → Option ChunkRecord) (k : Nat),
      (cs.iterateAborted parse k).1 <+: (cs.iterate parse).1) := by
  refine ⟨?_, ?_, ?_⟩
  · unfold ChatStream.abort
    cases hc : cs.abortCtrl with
    | none => rw [hc] at h; simp at h
    | some b => rfl
  · intro parse
    unfold ChatStream.iterateAborted
    cases cs.source with
    | nil => rw [goRun_nil, if_pos rfl]
    | cons c rest => rw [goRun_cons, if_pos rfl]
  · intro parse k
    unfold ChatStream.iterate ChatStream.iterateAborted
    exact goRun_yield_prefix parse cs.source k SSEMach.start ⟨cs.fullContent, cs.usage⟩

/-! ## Re-iteration after completion (claim C5) -/

theorem iterate_empty_source (parse : List Char → Option ChunkRecord)
    (cs : ChatStream) (h : cs.source = []) :
    cs.iterate parse = ([], none, cs) := by
  obtain ⟨src, ctrl, fc, u⟩ := cs
  simp only at h
  subst h
  unfold ChatStream.iterate
  rw [goRun_nil, if_neg (by simp : (none : Option Nat) ≠ some 0)]
  rfl

/-- C5 (amended): when a completed iteration has consumed the byte
source to exhaustion (always the case without an early `[DONE]` exit,
and with one exactly when no chunks follow the sentinel), a second
iteration yields no chunk records, raises no error, and leaves the
accumulated content and usage unchanged. -/
theorem chatstream_reiterate_after_drain
    (parse : List Char → Option ChunkRecord) (cs : ChatStream)
    (h : ((cs.iterate parse).2.2).source = []) :
    ((cs.iterate parse).2.2).iterate parse = ([], none, (cs.iterate parse).2.2) :=
  iterate_empty_source parse _ h

theorem chatstream_reiterate_after_drain_witness :
    ((({ source := [], abortCtrl := none, fullContent := [], usage := none } :
          ChatStream).iterate (fun _ => none)).2.2).iterate (fun _ => none)
      = ([], none,
         (({ source := [], abortCtrl := none, fullContent := [], usage := none } :
             ChatStream).iterate (fun _ => none)).2.2) :=
  chatstream_reiterate_after_drain (fun _ => none) _ (by decide)

/-- Byte sequence of an ASCII string, as delivered on the wire. -/
def asciiBytes (s : String) : List Nat := s.toList.map Char.toNat

/-- A model of `JSON.parse` on the payloads occurring in the C5
counterexample: `{}` parses to the empty object, nothing else occurs. -/
def parseCE : List Char → Option ChunkRecord :=
  fun s => if s = "\x7b\x7d".toList then some {} else none

/-- The stream of the C5 counterexample: a `[DONE]` sentinel chunk
followed by a further well-formed data chunk. -/
def csCE : ChatStream :=
  { source := [asciiBytes "data: [DONE]\n", asciiBytes "data: \x7b\x7d\n"],
    abortCtrl := none, fullContent := [], usage := none }

/-- C5 counterexample: the first iteration of `csCE` reaches the
`[DONE]` sentinel (natural completion: no chunks, no error), yet a
second iteration is not an empty continuation — it reads the bytes the
sentinel exit left unread and yields a further chunk record. -/
theorem reiterate_after_done_counterexample :
    (csCE.iterate parseCE).1 = [] ∧
    (csCE.iterate parseCE).2.1 = none ∧
    (((csCE.iterate parseCE).2.2).iterate parseCE).1 = [{}] := by
  decide

/-! ## Per-line SSE parsing (claim C10) -/

theorem dropWhile_append_all {p : Char → Bool} (w l : List Char)
    (hw : ∀ c ∈ w, p c = true) :
    (w ++ l).dropWhile p = l.dropWhile p := by
  induction w with
  | nil => rfl
  | cons c cw ih =>
    have hc := hw c (by simp)
    simp only [List.cons_append, List.dropWhile_cons, hc, if_true]
    exact ih (fun x hx => hw x (by simp [hx]))

theorem jsTrim_ws_append (w line : List Char)
    (hw : ∀ c ∈ w, jsIsWhitespace c = true) :
    jsTrim (w ++ line) = jsTrim line := by
  unfold jsTrim
  rw [dropWhile_append_all w line hw]

theorem parseLine_eq (line : List Char) :
    parseLine line =
      if jsTrim line = [] then none
      else if ("event:".toList).isPrefixOf (jsTrim line) = true then
        some { event := some (jsTrim ((jsTrim line).drop 6)), data := [] }
      else if ("data:".toList).isPrefixOf (jsTrim line) = true then
        some { data := jsTrim ((jsTrim line).drop 5) }
      else none :=
  rfl

/-- C10: a line whose trimmed form starts with neither `event:` nor
`data:` (comments, `id:` fields, `retry:` fields, ...) produces no
`StreamEvent`; and since the whole line is trimmed before prefix
matching, leading whitespace never prevents recognition. -/
theorem parseLine_ignores_non_field_lines :
    (∀ line : List Char,
        ("event:".toList).isPrefixOf (jsTrim line) = false →
        ("data:".toList).isPrefixOf (jsTrim line) = false →
        parseLine line = none) ∧
    (∀ w line : List Char, (∀ c ∈ w, jsIsWhitespace c = true) →
        parseLine (w ++ line) = parseLine line) := by
  constructor
  · intro line h1 h2
    have h1a : ¬(("event:".toList).isPrefixOf (jsTrim line) = true) := by
      rw [h1]; exact Bool.false_ne_true
    have h2a : ¬(("data:".toList).isPrefixOf (jsTrim line) = true) := by
      rw [h2]; exact Bool.false_ne_true
    by_cases ht : jsTrim line = []
    · rw [parseLine_eq, if_pos ht]
    · rw [parseLine_eq, if_neg ht, if_neg h1a, if_neg h2a]
  · intro w line hw
    rw [parseLine_eq, parseLine_eq, jsTrim_ws_append w line hw]

theorem parseLine_ignores_non_field_lines_witness :
    parseLine (": comment".toList) = none ∧
    parseLine (" ".toList ++ "data: x".toList) = parseLine ("data: x".toList) :=
  ⟨parseLine_ignores_non_field_lines.1 _ (by decide) (by decide),
   parseLine_ignores_non_field_lines.2 _ _ (by decide)⟩

/-! ## Request executor (`client.ts`)

The network call `this._fetch` is injected (`LunabyClientOptions.fetch`);
it is modelled as a queue of prepared outcomes, of which the executor
consumes the front — `LunabyClient.request` contains no retry loop, so
it performs exactly one fetch call and never sleeps. -/

/-- JavaScript `a || b` for optional strings: returns `b` whenever `a`
is absent or empty (falsy). -/
def jsOrOpt (a b : Option (List Char)) : Option (List Char) :=
  match a with
  | some s => if s ≠ [] then some s else b
  | none => b

/-- JavaScript `a || b` where `b` is a plain string. -/
def jsOr (a : Option (List Char)) (b : List Char) : List Char :=
  match a with
  | some s => if s ≠ [] then s else b
  | none => b

/-- JavaScript `hay.includes(needle)`: substring containment. -/
def jsIncludes (needle hay : List Char) : Bool :=
  decide (needle <:+: hay)

/-- Decimal rendering of a natural number (template-literal
interpolation of a JavaScript number). -/
def natChars (n : Nat) : List Char := Nat.toDigits 10 n

/-- The digit-prefix step of `parseInt`: the value of the leading
decimal digits, or `none` when there is no digit. -/
def leadingNat (s : List Char) : Option Nat :=
  let ds := s.takeWhile (fun c => '0' ≤ c ∧ c ≤ '9')
  if ds = [] then none
  else some (ds.foldl (fun acc c => acc * 10 + (c.toNat - '0'.toNat)) 0)

/-- JavaScript `parseInt(s, 10)`: skip leading whitespace, accept an
optional sign, read leading decimal digits; `NaN` when no digit
follows. -/
def jsParseInt (s : List Char) : JsNumber :=
  let t := s.dropWhile jsIsWhitespace
  match t with
  | '-' :: rest =>
    match leadingNat rest with
    | some n => .int (-(n : Int))
    | none => .nan
  | '+' :: rest =>
    match leadingNat rest with
    | some n => .int (n : Int)
    | none => .nan
  | _ =>
    match leadingNat t with
    | some n => .int (n : Int)
    | none => .nan

/-- The JSON error body as `handleErrorResponse` inspects it
(`{ error?, message?, details? }`); `none` models a null or absent
body, `some` a truthy one with the fields the code reads. -/
structure ErrorBody where
  error : Option (List Char) := none
  message : Option (List Char) := none
  details : Option (List (List Char × Bool)) := none
deriving DecidableEq

/-- A fetch `Response` as the executor consumes it. -/
structure HttpResponse where
  status : Nat
  statusText : List Char
  headers : List (List Char × List Char)
  bodyJson : Option ErrorBody := none
  bodyStream : Option (List (List Nat)) := none
deriving DecidableEq

/-- `response.ok`: status in the 2xx range. -/
def HttpResponse.ok (r : HttpResponse) : Bool :=
  200 ≤ r.status ∧ r.status < 300

/-- `Headers.get` of the Fetch standard: case-insensitive name match. -/
def asciiLower (c : Char) : Char :=
  if 'A' ≤ c ∧ c ≤ 'Z' then Char.ofNat (c.toNat + 32) else c

def headersGet (hs : List (List Char × List Char)) (target : List Char) :
    Option (List Char) :=
  (hs.find? (fun kv => kv.1.map asciiLower = target.map asciiLower)).map (·.2)

/-- A JavaScript `Error` as the catch block inspects it. -/
structure JsError where
  name : List Char
  message : List Char
deriving DecidableEq

/-- One prepared outcome of the injected fetch function. -/
inductive FetchOutcome where
  | success (r : HttpResponse)
  | failure (e : JsError)
deriving DecidableEq

/-- Client configuration (`LunabyClient` fields the executor reads). -/
structure ClientConfig where
  apiKey : List Char
  timeout : Nat
  maxRetries : Nat
  defaultHeaders : List (List Char × List Char)
deriving DecidableEq

/-- Per-call configuration (`InternalRequestConfig`): whether the
caller supplied an `AbortSignal`, the per-call timeout override, and
per-call custom headers. -/
structure RequestConfig where
  signal : Bool := false
  timeout : Option Nat := none
  headers : List (List Char × List Char) := []
deriving DecidableEq

/-- The header object literal built by `request`/`requestStream`:
`Content-Type` and `Authorization` first, then the client-level
default headers spread, then the per-call headers spread.  Object
spread is right-biased, so lookups take the last binding. -/
def mergedHeaders (client : ClientConfig) (cfg : RequestConfig) :
    List (List Char × List Char) :=
  [("Content-Type".toList, "application/json".toList),
   ("Authorization".toList, "Bearer ".toList ++ client.apiKey)]
    ++ client.defaultHeaders ++ cfg.headers

/-- Lookup in a header object literal: the last binding of a name wins
(JavaScript object spread semantics, case-sensitive keys). -/
def lookupHeader (hs : List (List Char × List Char)) (target : List Char) :
    Option (List Char) :=
  match hs with
  | [] => none
  | (k, v) :: rest =>
    match lookupHeader rest target with
    | some w => some w
    | none => if k = target then some v else none

/-- The effective timeout `timeout || this.timeout`: the per-call
value unless it is absent or `0` (falsy). -/
def effectiveTimeout (client : ClientConfig) (cfg : RequestConfig) : Nat :=
  match cfg.timeout with
  | some t => if t ≠ 0 then t else client.timeout
  | none => client.timeout

/-- `APIError.fromResponse`: status-specific human-readable message
composed from `body?.message || body?.error || statusText`. -/
def composeApiMessage (status : Nat) (message : List Char) : List Char :=
  if status = 400 then "Bad Request: ".toList ++ message
  else if status = 401 then
    "Authentication Error: ".toList ++ jsOr (some message) ("Invalid or missing API key".toList)
  else if status = 403 then
    "Forbidden: ".toList ++ jsOr (some message) ("You do not have access to this resource".toList)
  else if status = 404 then
    "Not Found: ".toList ++ jsOr (some message) ("The requested resource was not found".toList)
  else if status = 429 then
    "Rate Limit Exceeded: ".toList ++ jsOr (some message) ("Too many requests, please try again later".toList)
  else if status = 500 then
    "Internal Server Error: ".toList ++ jsOr (some message) ("The server encountered an error".toList)
  else if status = 502 ∨ status = 503 ∨ status = 504 then
    "Service Unavailable: ".toList ++ jsOr (some message) ("The service is temporarily unavailable".toList)
  else message

def apiErrorFromResponse (status : Nat) (statusText : List Char)
    (body : Option ApiErrorBody) : LunabyError :=
  let message := jsOr (jsOrOpt (body.bind ApiErrorBody.message) (body.map ApiErrorBody.error)) statusText
  .api (composeApiMessage status message) status statusText body

/-- `LunabyClient.handleErrorResponse`: classify a non-2xx response. -/
def handleErrorResponse (r : HttpResponse) : LunabyError :=
  let eb := r.bodyJson
  if r.status = 401 then
    .authentication
      ((jsOrOpt (eb.bind ErrorBody.message) (eb.bind ErrorBody.error)).getD
        ("Authentication failed. Please check your API key.".toList))
  else if r.status = 429 then
    let retryAfter := headersGet r.headers ("retry-after".toList)
    .rateLimit
      (jsOr (jsOrOpt (eb.bind ErrorBody.message) (eb.bind ErrorBody.error))
        ("Rate limit exceeded".toList))
      (match retryAfter with
       | some s => if s ≠ [] then some (jsParseInt s) else none
       | none => none)
  else
    apiErrorFromResponse r.status r.statusText
      (eb.map fun b =>
        { error := b.error.getD [], message := b.message, details := b.details })

/-- How one call of `LunabyClient.request` terminates. -/
inductive RequestOutcome where
  | ok (data : Option ErrorBody) (headers : List (List Char × List Char)) (status : Nat)
  | sdkError (e : LunabyError)
  | rethrown (e : JsError)
deriving DecidableEq

/-- Observable trace of one `request` call: its outcome, how many
times the injected fetch function was invoked, the backoff sleeps
performed, and the headers passed to fetch. -/
structure RequestTrace where
  outcome : RequestOutcome
  fetchCalls : Nat
  sleeps : List Nat
  sentHeaders : List (List Char × List Char)
deriving DecidableEq

/-- The termination of the try/catch body of `LunabyClient.request`:
classify a non-2xx response via `handleErrorResponse`, translate
signal-raised failures in the catch block, wrap connectivity failures,
rethrow anything else. -/
def requestOutcome (client : ClientConfig) (cfg : RequestConfig)
    (fetchImpl : List FetchOutcome) : RequestOutcome :=
  match fetchImpl.headD (.failure { name := "TypeError".toList, message := "fetch failed".toList }) with
  | .success r =>
    if r.ok then .ok r.bodyJson r.headers r.status
    else .sdkError (handleErrorResponse r)
  | .failure e =>
    if e.name = "AbortError".toList then
      if cfg.signal = false then
        .sdkError (.timeout ("Request timed out after ".toList
          ++ natChars (effectiveTimeout client cfg) ++ "ms".toList))
      else
        .sdkError (.abortErr ("Request was aborted".toList))
    else if jsIncludes ("fetch".toList) e.message then
      .sdkError (.connection ("Failed to connect to the API server".toList) none)
    else
      .rethrown e

/-- `LunabyClient.request`: merge headers, arm the internal timer only
when the caller supplied no signal, issue the fetch call, and settle
as `requestOutcome` describes.  The method body contains no loop and
no sleep: it invokes the injected fetch exactly once and never delays
(`this.maxRetries` is stored on the client but never read here). -/
def request (client : ClientConfig) (cfg : RequestConfig)
    (fetchImpl : List FetchOutcome) : RequestTrace :=
  { outcome := requestOutcome client cfg fetchImpl,
    fetchCalls := 1, sleeps := [],
    sentHeaders := mergedHeaders client cfg }

/-- How one call of `LunabyClient.requestStream` terminates. -/
inductive StreamOutcome where
  | ok (stream : List (List Nat)) (hasController : Bool)
  | sdkError (e : LunabyError)
  | rethrown (e : JsError)
deriving DecidableEq

structure StreamRequestTrace where
  outcome : StreamOutcome
  fetchCalls : Nat
  sleeps : List Nat
  sentHeaders : List (List Char × List Char)
deriving DecidableEq

/-- The termination of the try/catch body of `LunabyClient.requestStream`:
identical to `requestOutcome` except that the success branch returns
the raw byte stream together with the internally owned
`AbortController` (present exactly when the caller supplied no
signal); a null body is thrown as a plain `Error` that the catch block
rethrows. -/
def streamOutcome (client : ClientConfig) (cfg : RequestConfig)
    (fetchImpl : List FetchOutcome) : StreamOutcome :=
  match fetchImpl.headD (.failure { name := "TypeError".toList, message := "fetch failed".toList }) with
  | .success r =>
    if r.ok then
      match r.bodyStream with
      | some s => .ok s (cfg.signal = false)
      | none => .rethrown { name := "Error".toList, message := "Response body is null".toList }
    else .sdkError (handleErrorResponse r)
  | .failure e =>
    if e.name = "AbortError".toList then
      if cfg.signal = false then
        .sdkError (.timeout ("Request timed out after ".toList
          ++ natChars (effectiveTimeout client cfg) ++ "ms".toList))
      else
        .sdkError (.abortErr ("Request was aborted".toList))
    else if jsIncludes ("fetch".toList) e.message then
      .sdkError (.connection ("Failed to connect to the API server".toList) none)
    else
      .rethrown e

/-- `LunabyClient.requestStream` as a trace: like `request`, it
invokes fetch exactly once, never sleeps, and always sends the merged
headers. -/
def requestStream (client : ClientConfig) (cfg : RequestConfig)
    (fetchImpl : List FetchOutcome) : StreamRequestTrace :=
  { outcome := streamOutcome client cfg fetchImpl,
    fetchCalls := 1, sleeps := [],
    sentHeaders := mergedHeaders client cfg }

/-! ## Chat resource validation (`resources/chat.ts`) -/

/-- A runtime value that either is a string or is not
(`typeof x === 'string'` is all the validator checks about content). -/
inductive JsVal where
  | str (s : List Char)
  | nonString
deriving DecidableEq

/-- A caller-supplied chat message as validated at runtime: `role` may
be absent or any string, `content` any runtime value. -/
structure ChatMessage where
  role : Option (List Char) := none
  content : JsVal := .nonString
  name : Option (List Char) := none
deriving DecidableEq

/-- An element of the caller's messages array: an object or not. -/
inductive MsgVal where
  | obj (m : ChatMessage)
  | nonObject
deriving DecidableEq

/-- Negation of `!msg.role || !['system', ...].includes(msg.role)`:
the role is present, truthy, and one of the three permitted values. -/
def roleIsValid (r : Option (List Char)) : Bool :=
  match r with
  | some s => (s ≠ []) ∧
      (s = "system".toList ∨ s = "user".toList ∨ s = "assistant".toList)
  | none => false

/-- `typeof msg.content === 'string'`. -/
def contentIsString : JsVal → Bool
  | .str _ => true
  | .nonString => false

/-- The indexed loop of `validateMessages`: first failing check wins. -/
def validateAt : Nat → List MsgVal → Option LunabyError
  | _, [] => none
  | i, m :: rest =>
    match m with
    | .nonObject =>
      some (.validation ("messages[".toList ++ natChars i ++ "] must be an object".toList)
        (some ("messages".toList)))
    | .obj msg =>
      if roleIsValid msg.role = false then
        some (.validation ("messages[".toList ++ natChars i
            ++ "].role must be \x27system\x27, \x27user\x27, or \x27assistant\x27".toList)
          (some ("messages".toList)))
      else if contentIsString msg.content = false then
        some (.validation ("messages[".toList ++ natChars i
            ++ "].content must be a string".toList)
          (some ("messages".toList)))
      else
        validateAt (i + 1) rest

/-- `ChatCompletions.validateMessages`: the argument is a list, so the
`Array.isArray` check always passes; an empty list errors, then each
element is checked in order. -/
def validateMessages (messages : List MsgVal) : Option LunabyError :=
  if messages.length = 0 then
    some (.validation ("messages array cannot be empty".toList) (some ("messages".toList)))
  else
    validateAt 0 messages

/-- `ChatCompletions.create`: validate first, then delegate to
`client.request` — a validation failure surfaces before the injected
fetch function can be invoked. -/
def chatCreate (client : ClientConfig) (messages : List MsgVal)
    (cfg : RequestConfig) (fetchImpl : List FetchOutcome) : RequestTrace :=
  match validateMessages messages with
  | some e => { outcome := .sdkError e, fetchCalls := 0, sleeps := [], sentHeaders := [] }
  | none => request client cfg fetchImpl

/-- `ChatCompletions.createStream`: validate first, then delegate to
`client.requestStream`. -/
def chatCreateStream (client : ClientConfig) (messages : List MsgVal)
    (cfg : RequestConfig) (fetchImpl : List FetchOutcome) : StreamRequestTrace :=
  match validateMessages messages with
  | some e => { outcome := .sdkError e, fetchCalls := 0, sleeps := [], sentHeaders := [] }
  | none => requestStream client cfg fetchImpl

/-! ## Claim C1: retry policy -/

def clientC1 : ClientConfig :=
  { apiKey := "test-key".toList, timeout := 120000, maxRetries := 2, defaultHeaders := [] }

def resp503 : HttpResponse :=
  { status := 503, statusText := "Service Unavailable".toList, headers := [] }

def resp200 : HttpResponse :=
  { status := 200, statusText := "OK".toList, headers := [] }

/-- C1: the request executor has no retry loop.  With simulated
responses `[503, 503, 200]` and `maxRetries = 2` it does not return
the 200 result after two delays: it consumes only the first response,
performs zero delays, and surfaces the generic-API error classified
from the first 503 after a single attempt; with `[503, 503, 503]` it
behaves identically (one attempt, zero delays), not three attempts. -/
theorem request_503_no_retry :
    request clientC1 {} [.success resp503, .success resp503, .success resp200]
      = { outcome := .sdkError (.api ("Service Unavailable: Service Unavailable".toList)
            503 ("Service Unavailable".toList) none),
          fetchCalls := 1, sleeps := [],
          sentHeaders := mergedHeaders clientC1 {} } ∧
    request clientC1 {} [.success resp503, .success resp503, .success resp503]
      = { outcome := .sdkError (.api ("Service Unavailable: Service Unavailable".toList)
            503 ("Service Unavailable".toList) none),
          fetchCalls := 1, sleeps := [],
          sentHeaders := mergedHeaders clientC1 {} } := by
  decide

/-! ## Claim C6: merged request headers -/

theorem lookupHeader_append (a b : List (List Char × List Char)) (nm : List Char) :
    lookupHeader (a ++ b) nm =
      match lookupHeader b nm with
      | some w => some w
      | none => lookupHeader a nm := by
  induction a with
  | nil =>
    simp only [List.nil_append, lookupHeader]
    cases lookupHeader b nm <;> rfl
  | cons kv rest ih =>
    obtain ⟨k, v⟩ := kv
    simp only [List.cons_append, lookupHeader, List.append_eq]
    rw [ih]
    cases hb : lookupHeader b nm <;> cases hr : lookupHeader rest nm <;> simp

def clientC6 : ClientConfig :=
  { apiKey := "key".toList, timeout := 120000, maxRetries := 2, defaultHeaders := [] }

def cfgC6 : RequestConfig :=
  { signal := false, timeout := none,
    headers := [("Content-Type".toList, "text/plain".toList)] }

/-- C6 counterexample: the built-in `Content-Type: application/json`
entry comes first in the object spread, so a per-call header with the
same name replaces it — the headers this request sends do not include
`Content-Type: application/json`. -/
theorem content_type_override_counterexample :
    lookupHeader ((request clientC6 cfgC6 [.success resp200]).sentHeaders)
        ("Content-Type".toList) = some ("text/plain".toList) ∧
    some ("text/plain".toList) ≠ some ("application/json".toList) := by
  decide

/-- C6 (amended): every request (streaming or not) sends exactly the
merged header object; a name bound per-call takes priority over every
other level, a name bound only at client level takes priority over the
built-ins, and the built-in `Content-Type: application/json` and
`Authorization: Bearer <key>` entries survive exactly when neither the
client-level default headers nor the per-call headers rebind them. -/
theorem merged_headers_amended (client : ClientConfig) (cfg : RequestConfig)
    (q : List FetchOutcome) (nm : List Char) :
    (request client cfg q).sentHeaders = mergedHeaders client cfg ∧
    (requestStream client cfg q).sentHeaders = mergedHeaders client cfg ∧
    (∀ v, lookupHeader cfg.headers nm = some v →
      lookupHeader (mergedHeaders client cfg) nm = some v) ∧
    (lookupHeader cfg.headers nm = none →
      ∀ v, lookupHeader client.defaultHeaders nm = some v →
        lookupHeader (mergedHeaders client cfg) nm = some v) ∧
    (lookupHeader cfg.headers nm = none →
      lookupHeader client.defaultHeaders nm = none →
        (nm = "Content-Type".toList →
          lookupHeader (mergedHeaders client cfg) nm = some ("application/json".toList)) ∧
        (nm = "Authorization".toList →
          lookupHeader (mergedHeaders client cfg) nm
            = some ("Bearer ".toList ++ client.apiKey))) := by
  refine ⟨rfl, rfl, ?_, ?_, ?_⟩
  · intro v hv
    unfold mergedHeaders
    rw [lookupHeader_append, lookupHeader_append, hv]
  · intro hnone v hv
    unfold mergedHeaders
    rw [lookupHeader_append, lookupHeader_append, hnone, hv]
  · intro hnone hdnone
    constructor <;> intro hnm <;> subst hnm <;>
      · unfold mergedHeaders
        rw [lookupHeader_append, lookupHeader_append, hnone, hdnone]
        simp [lookupHeader]

def clientW : ClientConfig :=
  { apiKey := "k".toList, timeout := 1, maxRetries := 2,
    defaultHeaders := [("X-A".toList, "1".toList)] }

def cfgW : RequestConfig :=
  { headers := [("X-A".toList, "2".toList)] }

theorem merged_headers_amended_witness :
    lookupHeader (mergedHeaders clientW cfgW) ("X-A".toList) = some ("2".toList) ∧
    lookupHeader (mergedHeaders clientW cfgW) ("Content-Type".toList)
      = some ("application/json".toList) :=
  ⟨(merged_headers_amended clientW cfgW [] ("X-A".toList)).2.2.1 _ (by decide),
   ((merged_headers_amended clientW cfgW [] ("Content-Type".toList)).2.2.2.2
      (by decide) (by decide)).1 rfl⟩

/-! ## Claim C7: abort-kind versus timeout-kind classification -/

/-- C7: when the fetch call fails with an `AbortError`-named error, the
executor surfaces an abort-kind error if the caller supplied the active
signal, and a timeout-kind error naming the effective timeout in
milliseconds if the internal timer-owned signal was in charge. -/
theorem signal_failure_classification (client : ClientConfig) (cfg : RequestConfig)
    (e : JsError) (rest : List FetchOutcome) (h : e.name = "AbortError".toList) :
    (cfg.signal = true →
      (request client cfg (.failure e :: rest)).outcome
        = .sdkError (.abortErr ("Request was aborted".toList))) ∧
    (cfg.signal = false →
      (request client cfg (.failure e :: rest)).outcome
        = .sdkError (.timeout ("Request timed out after ".toList
            ++ natChars (effectiveTimeout client cfg) ++ "ms".toList))) := by
  constructor <;> intro hs <;>
    · show requestOutcome client cfg (.failure e :: rest) = _
      unfold requestOutcome
      rw [List.headD_cons]
      dsimp only
      rw [if_pos h, hs]
      simp

def cfgSig : RequestConfig := { signal := true }

def cfgNoSig : RequestConfig := { signal := false, timeout := some 5000 }

def abortE : JsError :=
  { name := "AbortError".toList, message := "The operation was aborted".toList }

theorem signal_failure_classification_witness :
    (request clientW cfgSig [.failure abortE]).outcome
      = .sdkError (.abortErr ("Request was aborted".toList)) ∧
    (request clientW cfgNoSig [.failure abortE]).outcome
      = .sdkError (.timeout ("Request timed out after 5000ms".toList)) :=
  ⟨(signal_failure_classification clientW cfgSig abortE [] (by decide)).1 rfl,
   ((signal_failure_classification clientW cfgNoSig abortE [] (by decide)).2 rfl).trans
     (by decide)⟩

/-! ## Claim C8: rate-limit classification and retry-after parsing -/

/-- The `retryAfter` field of a rate-limit error, when the error is
one. -/
def rateLimitRetryAfter : LunabyError → Option (Option JsNumber)
  | .rateLimit _ ra => some ra
  | _ => none

def resp429abc : HttpResponse :=
  { status := 429, statusText := "Too Many Requests".toList,
    headers := [("retry-after".toList, "abc".toList)] }

/-- C8 counterexample: a 429 response whose `retry-after` header is
the unparseable string `abc` produces a rate-limit error whose
`retryAfter` field is present and `NaN` — not absent as the claim
states (`retryAfter ? parseInt(retryAfter, 10) : undefined` passes
`NaN` through for any non-empty unparseable header). -/
theorem retry_after_nan_counterexample :
    handleErrorResponse resp429abc
      = .rateLimit ("Rate limit exceeded".toList) (some JsNumber.nan) ∧
    (some JsNumber.nan : Option JsNumber) ≠ none := by
  decide

/-- C8 (amended): a 429 response always classifies as a rate-limit
error; its `retryAfter` field is absent when the `retry-after` header
is missing or empty, and otherwise is `parseInt(header, 10)` — an
integer count of seconds when the header starts with digits, `NaN`
(present, not absent) when it is unparseable. -/
theorem rate_limit_retry_after (r : HttpResponse) (h : r.status = 429) :
    (∃ m ra, handleErrorResponse r = .rateLimit m ra) ∧
    (headersGet r.headers ("retry-after".toList) = none →
      rateLimitRetryAfter (handleErrorResponse r) = some none) ∧
    (headersGet r.headers ("retry-after".toList) = some [] →
      rateLimitRetryAfter (handleErrorResponse r) = some none) ∧
    (∀ s, headersGet r.headers ("retry-after".toList) = some s → s ≠ [] →
      rateLimitRetryAfter (handleErrorResponse r) = some (some (jsParseInt s))) := by
  have h401 : ¬(r.status = 401) := by rw [h]; decide
  unfold handleErrorResponse
  rw [if_neg h401, if_pos h]
  dsimp only
  refine ⟨⟨_, _, rfl⟩, ?_, ?_, ?_⟩
  · intro hra
    rw [hra]
    rfl
  · intro hra
    rw [hra]
    simp [rateLimitRetryAfter]
  · intro s hra hs
    rw [hra]
    simp [rateLimitRetryAfter, hs]

def resp429five : HttpResponse :=
  { status := 429, statusText := "Too Many Requests".toList,
    headers := [("retry-after".toList, "5".toList)] }

def resp429bare : HttpResponse :=
  { status := 429, statusText := "Too Many Requests".toList, headers := [] }

theorem rate_limit_retry_after_witness :
    rateLimitRetryAfter (handleErrorResponse resp429five)
      = some (some (JsNumber.int 5)) ∧
    rateLimitRetryAfter (handleErrorResponse resp429bare) = some none :=
  ⟨((rate_limit_retry_after resp429five rfl).2.2.2 ("5".toList)
      (by decide) (by decide)).trans (by decide),
   (rate_limit_retry_after resp429bare rfl).2.1 (by decide)⟩

/-! ## Claim C9: validation precedes network activity -/

theorem validateAt_cons_obj (i : Nat) (msg : ChatMessage) (rest : List MsgVal) :
    validateAt i (.obj msg :: rest) =
      if roleIsValid msg.role = false then
        some (.validation ("messages[".toList ++ natChars i
            ++ "].role must be \x27system\x27, \x27user\x27, or \x27assistant\x27".toList)
          (some ("messages".toList)))
      else if contentIsString msg.content = false then
        some (.validation ("messages[".toList ++ natChars i
            ++ "].content must be a string".toList)
          (some ("messages".toList)))
      else validateAt (i + 1) rest :=
  rfl

theorem validateAt_some_of_bad (l : List MsgVal) (i : Nat)
    (h : ∃ msg, MsgVal.obj msg ∈ l ∧
        (roleIsValid msg.role = false ∨ contentIsString msg.content = false)) :
    ∃ s f, validateAt i l = some (.validation s f) := by
  induction l generalizing i with
  | nil =>
    obtain ⟨msg, hm, _⟩ := h
    simp at hm
  | cons m rest ih =>
    cases m with
    | nonObject => exact ⟨_, _, rfl⟩
    | obj msg0 =>
      by_cases hrole : roleIsValid msg0.role = false
      · exact ⟨_, _, by rw [validateAt_cons_obj, if_pos hrole]⟩
      · by_cases hcont : contentIsString msg0.content = false
        · exact ⟨_, _, by rw [validateAt_cons_obj, if_neg hrole, if_pos hcont]⟩
        · obtain ⟨msg, hm, hbad⟩ := h
          rcases List.mem_cons.mp hm with heq | hmem
          · injection heq with h2
            subst h2
            rcases hbad with hb | hb
            · exact absurd hb hrole
            · exact absurd hb hcont
          · obtain ⟨s, f, hv⟩ := ih (i + 1) ⟨msg, hmem, hbad⟩
            exact ⟨s, f, by rw [validateAt_cons_obj, if_neg hrole, if_neg hcont]; exact hv⟩

/-- C9: for a caller input whose message list is empty, or contains an
element whose role is outside `{system, user, assistant}` or whose
content is not a string, `chat.create` and `chat.createStream` surface
a validation-kind error and never invoke the injected network-call
function. -/
theorem validation_before_network (client : ClientConfig) (messages : List MsgVal)
    (cfg : RequestConfig) (q : List FetchOutcome)
    (h : messages = [] ∨ ∃ msg, MsgVal.obj msg ∈ messages ∧
        (roleIsValid msg.role = false ∨ contentIsString msg.content = false)) :
    (∃ s f, (chatCreate client messages cfg q).outcome = .sdkError (.validation s f)) ∧
    (chatCreate client messages cfg q).fetchCalls = 0 ∧
    (∃ s f, (chatCreateStream client messages cfg q).outcome = .sdkError (.validation s f)) ∧
    (chatCreateStream client messages cfg q).fetchCalls = 0 := by
  have hv : ∃ s f, validateMessages messages = some (.validation s f) := by
    rcases h with rfl | hbad
    · exact ⟨_, _, rfl⟩
    · have hne : messages ≠ [] := by
        obtain ⟨msg, hm, _⟩ := hbad
        intro he
        rw [he] at hm
        simp at hm
      have hlen : ¬(messages.length = 0) := by
        simpa [List.length_eq_zero] using hne
      unfold validateMessages
      rw [if_neg hlen]
      exact validateAt_some_of_bad messages 0 hbad
  obtain ⟨s, f, hvv⟩ := hv
  unfold chatCreate chatCreateStream
  rw [hvv]
  exact ⟨⟨s, f, rfl⟩, rfl, ⟨s, f, rfl⟩, rfl⟩

def badMsgs : List MsgVal :=
  [.obj { role := some ("user".toList), content := .nonString }]

theorem validation_before_network_witness :
    (chatCreate clientW badMsgs {} []).fetchCalls = 0 ∧
    (chatCreateStream clientW badMsgs {} []).fetchCalls = 0 ∧
    (chatCreate clientW badMsgs {} []).outcome
      = .sdkError (.validation ("messages[0].content must be a string".toList)
          (some ("messages".toList))) :=
  ⟨(validation_before_network clientW badMsgs {} []
      (Or.inr ⟨{ role := some ("user".toList), content := .nonString },
        by decide, Or.inr (by decide)⟩)).2.1,
   (validation_before_network clientW badMsgs {} []
      (Or.inr ⟨{ role := some ("user".toList), content := .nonString },
        by decide, Or.inr (by decide)⟩)).2.2.2,
   by decide⟩

/-! ## Witness for claim C4 -/

def csW4 : ChatStream :=
  { source := [], abortCtrl := some false, fullContent := [], usage := none }

theorem chatstream_abort_cancellation_witness :
    (csW4.abort).abortCtrl = some true ∧
    (csW4.iterateAborted (fun _ => none) 0).2.1
      = some (.streamErr ("Error reading stream".toList) (some ("AbortError".toList))) :=
  ⟨(chatstream_abort_cancellation csW4 (by decide)).1,
   (chatstream_abort_cancellation csW4 (by decide)).2.1 (fun _ => none)⟩

end Lunaby
